import Mathlib

/-!
Verification of the insider-trading-tracker repository (src/parser.py,
src/scraper.py, src/config.py) against its natural-language specification.

The Python code is shallowly embedded: XML documents (after the BeautifulSoup
parsing step) are modelled as a tree of elements and text nodes; Python floats
are modelled as exact rationals `ℚ`; network, filesystem and clock effects are
modelled by explicit environment records, and functions that in Python perform
I/O become pure functions of those environments.  Python's `requests`
`raise_for_status` is modelled by its documented behaviour: it raises exactly
for status codes in 400..599.
-/

namespace InsiderTracker

/-! ### String helpers (Python `str.strip`, `str.replace(",", "")`, `str.upper`) -/

/-- Python `str.strip()` on a character list: drop leading and trailing
whitespace. -/
def trimChars (cs : List Char) : List Char :=
  ((cs.dropWhile Char.isWhitespace).reverse.dropWhile Char.isWhitespace).reverse

/-- Python `str.strip()`. -/
def pyStrip (s : String) : String := ⟨trimChars s.data⟩

/-- Python `text.replace(",", "")`: remove every comma. -/
def stripCommas (s : String) : String := ⟨s.data.filter (fun c => c ≠ ',')⟩

/-- Python `str.upper()` (per-character uppercasing). -/
def pyUpper (s : String) : String := ⟨s.data.map Char.toUpper⟩

/-! ### Python `float()` on decimal literals

`float(text)` is modelled on finite decimal literals
`[+-]? (digits [. digits*] | . digits) ([eE] [+-]? digits)?`, surrounding
whitespace allowed; any other input is a parse failure (in Python a
`ValueError`), modelled as `none`. -/

/-- Optional leading sign; returns (isNegative, rest). -/
def parseSignChars : List Char → Bool × List Char
  | '+' :: cs => (false, cs)
  | '-' :: cs => (true, cs)
  | cs => (false, cs)

/-- Numeric value of a digit string. -/
def digitsToNat (ds : List Char) : ℕ :=
  ds.foldl (fun a c => 10 * a + (c.toNat - '0'.toNat)) 0

/-- Parse the optional exponent part `([eE] [+-]? digits)`; the whole rest of
the input must be consumed. -/
def parseExpPart : List Char → Option ℤ
  | [] => some 0
  | c :: rest =>
    if c = 'e' ∨ c = 'E' then
      let (sgn, r) := parseSignChars rest
      let ds := r.takeWhile Char.isDigit
      let r2 := r.dropWhile Char.isDigit
      if ds = [] ∨ r2 ≠ [] then none
      else some (if sgn then -(digitsToNat ds : ℤ) else (digitsToNat ds : ℤ))
    else none

/-- Exact value of a decimal literal with integer digits `intD`, fraction
digits `fracD` and a base-ten exponent `e`: the rational
`± (intD.fracD) · 10^e`, built with `mkRat` so that it evaluates by kernel
reduction. -/
def decimalVal (neg : Bool) (intD fracD : List Char) (e : ℤ) : ℚ :=
  let F := fracD.length
  let m : ℕ := digitsToNat intD * 10 ^ F + digitsToNat fracD
  let q : ℚ :=
    match e with
    | .ofNat k => mkRat (Int.ofNat (m * 10 ^ k)) (10 ^ F)
    | .negSucc k => mkRat (Int.ofNat m) (10 ^ F * 10 ^ (k + 1))
  if neg then -q else q

/-- Core of Python `float()` on an already-trimmed character list. -/
def pyFloatCore (cs : List Char) : Option ℚ :=
  let (neg, r0) := parseSignChars cs
  let intD := r0.takeWhile Char.isDigit
  let r1 := r0.dropWhile Char.isDigit
  match r1 with
  | '.' :: r2 =>
    let fracD := r2.takeWhile Char.isDigit
    let r3 := r2.dropWhile Char.isDigit
    if intD = [] ∧ fracD = [] then none
    else
      match parseExpPart r3 with
      | none => none
      | some e => some (decimalVal neg intD fracD e)
  | _ =>
    if intD = [] then none
    else
      match parseExpPart r1 with
      | none => none
      | some e => some (decimalVal neg intD [] e)

/-- Python `float(s)` (strips surrounding whitespace itself). -/
def pyFloatOfString (s : String) : Option ℚ := pyFloatCore (trimChars s.data)

/-- src/parser.py lines 188-193: `_to_float` — strip thousands separators and
surrounding whitespace, convert, and return 0.0 on any parse failure. -/
def _to_float (text : String) : ℚ :=
  (pyFloatOfString (pyStrip (stripCommas text))).getD 0

/-! ### config.py -/

/-- src/config.py lines 59-74: `TRANSACTION_CODES`. -/
def TRANSACTION_CODES : List (String × String) :=
  [("P", "Purchase"), ("S", "Sale"), ("A", "Grant/Award"),
   ("D", "Disposition (Gift)"), ("F", "Tax Withholding"),
   ("M", "Option Exercise"), ("C", "Conversion"), ("G", "Gift"),
   ("J", "Other"), ("K", "Equity Swap"), ("U", "Tender of Shares"),
   ("W", "Will/Inheritance"), ("X", "Option Exercise (OTM)"), ("Z", "Trust")]

/-! ### The document model

A Form 4 document after the BeautifulSoup parsing step: a tree of named
elements and text nodes.  `find` returns the first matching element among the
strict descendants in document (pre-)order; `find_all` returns all of them;
`.text` concatenates all descendant text, exactly as in BeautifulSoup.
BeautifulSoup tags are always truthy, so Python's `a or b` on tag lookups is
`Option` alternation. -/

mutual

inductive Node where
  | text : String → Node
  | elem : String → NodeList → Node

inductive NodeList where
  | nil : NodeList
  | cons : Node → NodeList → NodeList

end

/-- Build a `NodeList` from a `List Node` (for building example documents). -/
def NodeList.ofList : List Node → NodeList
  | [] => .nil
  | n :: ns => .cons n (NodeList.ofList ns)

/-- Element-node constructor taking a plain list of children. -/
def nEl (name : String) (cs : List Node) : Node := .elem name (NodeList.ofList cs)

mutual

/-- BeautifulSoup `.text`: concatenation of all descendant strings. -/
def Node.textStr : Node → String
  | .text s => s
  | .elem _ cs => NodeList.textStr cs

def NodeList.textStr : NodeList → String
  | .nil => ""
  | .cons n ns => Node.textStr n ++ NodeList.textStr ns

end

mutual

/-- First element named `name` in `n` or among its descendants (pre-order). -/
def Node.hit (n : Node) (name : String) : Option Node :=
  match n with
  | .text _ => none
  | .elem nm cs => if nm = name then some (.elem nm cs) else NodeList.findTag cs name

/-- First element named `name` in the forest (pre-order). -/
def NodeList.findTag (l : NodeList) (name : String) : Option Node :=
  match l with
  | .nil => none
  | .cons n ns =>
    match Node.hit n name with
    | some m => some m
    | none => NodeList.findTag ns name

end

/-- BeautifulSoup `tag.find(name)`: first matching strict descendant. -/
def Node.find (n : Node) (name : String) : Option Node :=
  match n with
  | .text _ => none
  | .elem _ cs => NodeList.findTag cs name

mutual

/-- All elements named `name` in `n` or among its descendants (pre-order). -/
def Node.hitAll (n : Node) (name : String) : List Node :=
  match n with
  | .text _ => []
  | .elem nm cs =>
    (if nm = name then [Node.elem nm cs] else []) ++ NodeList.findAllTag cs name

def NodeList.findAllTag (l : NodeList) (name : String) : List Node :=
  match l with
  | .nil => []
  | .cons n ns => Node.hitAll n name ++ NodeList.findAllTag ns name

end

/-- BeautifulSoup `tag.find_all(name)`: all matching strict descendants. -/
def Node.findAll (n : Node) (name : String) : List Node :=
  match n with
  | .text _ => []
  | .elem _ cs => NodeList.findAllTag cs name

/-- src/parser.py line 177: `tag_name[0].upper() + tag_name[1:]`. -/
def pascalCase (s : String) : String :=
  match s.data with
  | [] => ""
  | c :: rest => ⟨Char.toUpper c :: rest⟩

/-- The paired lookup `parent.find(name) or parent.find(Name)` used throughout
src/parser.py (the PascalCase variant is tried when the lowerCamelCase one is
absent). -/
def findCC (n : Node) (name : String) : Option Node :=
  match n.find name with
  | some t => some t
  | none => n.find (pascalCase name)

/-- The paired lookup `parent.find_all(name) or parent.find_all(Name)`
(Python `or` on lists: an empty list is falsy). -/
def findAllCC (n : Node) (name : String) : List Node :=
  let l := n.findAll name
  if l.isEmpty then n.findAll (pascalCase name) else l

/-- src/parser.py lines 172-179: `_get_text`. -/
def _get_text (parent : Node) (tag_name : String) : String :=
  match findCC parent tag_name with
  | some tag => pyStrip tag.textStr
  | none => ""

/-- src/parser.py lines 182-185: `_get_bool`. -/
def _get_bool (parent : Node) (tag_name : String) : Bool :=
  let t := _get_text parent tag_name
  t = "1" ∨ t = "true" ∨ t = "True"

/-! ### src/parser.py `_parse_transaction` (lines 101-169)

Each local of the Python function becomes a named definition so that the
theorems can speak about the intermediate values (the raw share count and the
acquired/disposed flag). -/

/-- Lines 103-108: the transaction code (`transactionCoding/transactionCode`,
default `""`). -/
def txnCode (txn : Node) : String :=
  match findCC txn "transactionCoding" with
  | none => ""
  | some coding =>
    match findCC coding "transactionCode" with
    | none => ""
    | some ct => pyStrip ct.textStr

/-- Lines 114-123: the raw share count as parsed from the document (before the
acquired/disposed sign normalization); missing elements default to 0. -/
def txnRawShares (txn : Node) : ℚ :=
  match findCC txn "transactionAmounts" with
  | none => 0
  | some amounts =>
    match findCC amounts "transactionShares" with
    | none => 0
    | some st =>
      match findCC st "value" with
      | some v => _to_float v.textStr
      | none => _to_float "0"

/-- Lines 125-128: price per share, default 0. -/
def txnPrice (txn : Node) : ℚ :=
  match findCC txn "transactionAmounts" with
  | none => 0
  | some amounts =>
    match findCC amounts "transactionPricePerShare" with
    | none => 0
    | some pt =>
      match findCC pt "value" with
      | some v => _to_float v.textStr
      | none => _to_float "0"

/-- Lines 130-133: the acquired/disposed flag, default `""`. -/
def txnAdFlag (txn : Node) : String :=
  match findCC txn "transactionAmounts" with
  | none => ""
  | some amounts =>
    match findCC amounts "transactionAcquiredDisposedCode" with
    | none => ""
    | some adt =>
      match findCC adt "value" with
      | some v => pyStrip v.textStr
      | none => ""

/-- Lines 136-142: shares owned after the transaction, default 0. -/
def txnSharesAfter (txn : Node) : ℚ :=
  match findCC txn "postTransactionAmounts" with
  | none => 0
  | some post =>
    match findCC post "sharesOwnedFollowingTransaction" with
    | none => 0
    | some held =>
      match findCC held "value" with
      | some v => _to_float v.textStr
      | none => _to_float "0"

/-- Lines 145-151: raw ownership marker, default `"D"`. -/
def txnOwnershipRaw (txn : Node) : String :=
  match findCC txn "ownershipNature" with
  | none => "D"
  | some ont =>
    match findCC ont "directOrIndirectOwnership" with
    | none => "D"
    | some dio =>
      match findCC dio "value" with
      | some v => pyStrip v.textStr
      | none => "D"

/-- Exact rational multiplication written through `mkRat` so that it evaluates
by kernel reduction; provably equal to `*` on `ℚ` (`qMul_eq_mul`). -/
def qMul (a b : ℚ) : ℚ := mkRat (a.num * b.num) (a.den * b.den)

theorem qMul_eq_mul (a b : ℚ) : qMul a b = a * b := by
  unfold qMul
  rw [Rat.mkRat_eq_div]
  push_cast
  rw [← div_mul_div_comm, Rat.num_div_den, Rat.num_div_den]

/-- The dictionary returned by `_parse_transaction` (lines 161-169). -/
structure TxnRecord where
  transaction_code : String
  transaction_type : String
  shares : ℚ
  price_per_share : ℚ
  total_value : ℚ
  shares_owned_after : ℚ
  ownership_type : String
deriving DecidableEq, Repr

/-- src/parser.py lines 101-169: `_parse_transaction`.  The
`security_type` argument is accepted but, as in the source, does not occur in
the returned record. -/
def _parse_transaction (txn : Node) (security_type : String) : TxnRecord :=
  let code := txnCode txn
  let txn_type := (TRANSACTION_CODES.lookup code).getD code
  let shares0 := txnRawShares txn
  let price := txnPrice txn
  let acquired_disposed := txnAdFlag txn
  let shares_after := txnSharesAfter txn
  let ownership := txnOwnershipRaw txn
  let ownership_display := if ownership = "D" then "Direct" else "Indirect"
  let shares := if acquired_disposed = "D" then -|shares0| else shares0
  let total_value := qMul |shares| price
  { transaction_code := code
    transaction_type := txn_type
    shares := shares
    price_per_share := price
    total_value := total_value
    shares_owned_after := shares_after
    ownership_type := ownership_display }

/-- Recomputation of the total value from a record's own shares and price
fields, following the spec's invariant sentence (used to state idempotence). -/
def recomputeTotal (r : TxnRecord) : TxnRecord :=
  { r with total_value := |r.shares| * r.price_per_share }

/-! ### src/parser.py `parse_form4_xml` (lines 8-98) -/

/-- Lines 26: `soup.find("issuer") or soup.find("Issuer")`. -/
def issuerTag (soup : Node) : Option Node :=
  match soup.find "issuer" with
  | some t => some t
  | none => soup.find "Issuer"

/-- Lines 27-32: the issuer company name, default `""`. -/
def issuerCompany (soup : Node) : String :=
  match issuerTag soup with
  | none => ""
  | some issuer =>
    match issuer.find "issuerName" with
    | some nt => pyStrip nt.textStr
    | none =>
      match issuer.find "IssuerName" with
      | some nt => pyStrip nt.textStr
      | none => ""

/-- Lines 28-33: the issuer CIK, default `""`. -/
def issuerCikStr (soup : Node) : String :=
  match issuerTag soup with
  | none => ""
  | some issuer =>
    match findCC issuer "issuerCik" with
    | some ct => pyStrip ct.textStr
    | none => ""

/-- Lines 35-38: the ticker symbol, uppercased, default `""`. -/
def issuerTicker (soup : Node) : String :=
  match issuerTag soup with
  | none => ""
  | some issuer =>
    match findCC issuer "issuerTradingSymbol" with
    | some t => pyUpper (pyStrip t.textStr)
    | none => ""

/-- Lines 41-50: the reporting owner's name, default `""`. -/
def ownerName (soup : Node) : String :=
  match findCC soup "reportingOwner" with
  | none => ""
  | some ot =>
    match findCC ot "reportingOwnerId" with
    | none => ""
    | some oid =>
      match findCC oid "rptOwnerName" with
      | some nt => pyStrip nt.textStr
      | none => ""

/-- Lines 52-66: the reporting owner's title, built from the relationship
flags, default `""`. -/
def ownerTitle (soup : Node) : String :=
  match findCC soup "reportingOwner" with
  | none => ""
  | some ot =>
    match findCC ot "reportingOwnerRelationship" with
    | none => ""
    | some rel =>
      let titles :=
        (if _get_bool rel "isDirector" then ["Director"] else []) ++
        (if _get_bool rel "isOfficer" then
          [if _get_text rel "officerTitle" = "" then "Officer"
           else _get_text rel "officerTitle"] else []) ++
        (if _get_bool rel "isTenPercentOwner" then ["10% Owner"] else []) ++
        (if _get_bool rel "isOther" then
          [if _get_text rel "otherText" = "" then "Other"
           else _get_text rel "otherText"] else [])
      String.intercalate ", " titles

/-- A parsed trade record: the transaction fields plus the issuer/owner fields
merged in by `trade.update({...})` (lines 74-80 and 89-95).  `filing_date` is
not produced by the parser (it is filled in later by the collectors) and
starts out empty. -/
structure Trade where
  transaction_code : String
  transaction_type : String
  shares : ℚ
  price_per_share : ℚ
  total_value : ℚ
  shares_owned_after : ℚ
  ownership_type : String
  company : String
  ticker : String
  insider_name : String
  insider_title : String
  filing_url : String
  filing_date : String
deriving DecidableEq, Repr

/-- Lines 74-80 / 89-95: merge the issuer and owner information into a parsed
transaction record. -/
def mkTrade (soup : Node) (filing_url : String) (r : TxnRecord) : Trade :=
  { transaction_code := r.transaction_code
    transaction_type := r.transaction_type
    shares := r.shares
    price_per_share := r.price_per_share
    total_value := r.total_value
    shares_owned_after := r.shares_owned_after
    ownership_type := r.ownership_type
    company := issuerCompany soup
    ticker := issuerTicker soup
    insider_name := ownerName soup
    insider_title := ownerTitle soup
    filing_url := filing_url
    filing_date := "" }

/-- src/parser.py lines 8-98: `parse_form4_xml`, taking the document tree
produced by the BeautifulSoup parsing step.  Non-derivative transactions are
emitted first, then derivative ones, exactly as in the source. -/
def parse_form4_xml (soup : Node) (filing_url : String) : List Trade :=
  let ndTrades :=
    match findCC soup "nonDerivativeTable" with
    | none => []
    | some tbl =>
      (findAllCC tbl "nonDerivativeTransaction").map
        (fun txn => mkTrade soup filing_url (_parse_transaction txn "Non-Derivative"))
  let dTrades :=
    match findCC soup "derivativeTable" with
    | none => []
    | some tbl =>
      (findAllCC tbl "derivativeTransaction").map
        (fun txn => mkTrade soup filing_url (_parse_transaction txn "Derivative"))
  ndTrades ++ dTrades

/-! ### Tag-renaming (for the casing-insensitivity claim)

`Node.recase old new` renames every element named `old` to `new`, leaving
structure and text untouched: the two documents of the claim "identical
except for the casing of a tag name". -/

mutual

def Node.recase (old new : String) : Node → Node
  | .text s => .text s
  | .elem nm cs => .elem (if nm = old then new else nm) (NodeList.recase old new cs)

def NodeList.recase (old new : String) : NodeList → NodeList
  | .nil => .nil
  | .cons n ns => .cons (Node.recase old new n) (NodeList.recase old new ns)

end

mutual

/-- Whether `n` or one of its descendants is an element named `p`. -/
def Node.hasTag (p : String) : Node → Bool
  | .text _ => false
  | .elem nm cs => nm == p || NodeList.hasTag p cs

def NodeList.hasTag (p : String) : NodeList → Bool
  | .nil => false
  | .cons n ns => Node.hasTag p n || NodeList.hasTag p ns

end

mutual

theorem Node.textStr_recase (old new : String) :
    (n : Node) → (Node.recase old new n).textStr = n.textStr
  | .text _ => rfl
  | .elem _ cs => by
    simp only [Node.recase, Node.textStr]
    exact NodeList.textStrL_recase old new cs

theorem NodeList.textStrL_recase (old new : String) :
    (l : NodeList) → (NodeList.recase old new l).textStr = l.textStr
  | .nil => rfl
  | .cons n ns => by
    simp only [NodeList.recase, NodeList.textStr]
    rw [Node.textStr_recase old new n, NodeList.textStrL_recase old new ns]

end

mutual

/-- Renaming `old → new` does not disturb searches for an unrelated name. -/
theorem Node.hit_recase (old new name : String) (h1 : name ≠ old) (h2 : name ≠ new) :
    (n : Node) →
      Node.hit (Node.recase old new n) name
        = Option.map (Node.recase old new) (Node.hit n name)
  | .text _ => rfl
  | .elem nm cs => by
    simp only [Node.recase, Node.hit]
    by_cases ho : nm = old
    · rw [if_pos ho, if_neg (fun hh => h2 hh.symm), if_neg (fun hh => h1 (hh.symm.trans ho))]
      exact NodeList.findTag_recase old new name h1 h2 cs
    · rw [if_neg ho]
      by_cases hn : nm = name
      · rw [if_pos hn, if_pos hn]
        simp [Node.recase, if_neg ho]
      · rw [if_neg hn, if_neg hn]
        exact NodeList.findTag_recase old new name h1 h2 cs

theorem NodeList.findTag_recase (old new name : String) (h1 : name ≠ old) (h2 : name ≠ new) :
    (l : NodeList) →
      NodeList.findTag (NodeList.recase old new l) name
        = Option.map (Node.recase old new) (NodeList.findTag l name)
  | .nil => rfl
  | .cons n ns => by
    simp only [NodeList.recase, NodeList.findTag]
    rw [Node.hit_recase old new name h1 h2 n]
    cases Node.hit n name with
    | some m => simp
    | none =>
      simp only [Option.map_none']
      exact NodeList.findTag_recase old new name h1 h2 ns

end

mutual

/-- After renaming `old → new` (with `old ≠ new`) no search for `old` can
succeed. -/
theorem Node.hit_recase_old (old new : String) (hne : old ≠ new) :
    (n : Node) → Node.hit (Node.recase old new n) old = none
  | .text _ => rfl
  | .elem nm cs => by
    simp only [Node.recase, Node.hit]
    by_cases ho : nm = old
    · rw [if_pos ho, if_neg (fun hh => hne hh.symm)]
      exact NodeList.findTag_recase_old old new hne cs
    · rw [if_neg ho, if_neg ho]
      exact NodeList.findTag_recase_old old new hne cs

theorem NodeList.findTag_recase_old (old new : String) (hne : old ≠ new) :
    (l : NodeList) → NodeList.findTag (NodeList.recase old new l) old = none
  | .nil => rfl
  | .cons n ns => by
    simp only [NodeList.recase, NodeList.findTag]
    rw [Node.hit_recase_old old new hne n]
    exact NodeList.findTag_recase_old old new hne ns

end

mutual

/-- In a tree that contains no `new`-named element, searching for `new` after
the renaming `old → new` finds exactly the renamed image of what a search for
`old` found before. -/
theorem Node.hit_recase_new (old new : String) :
    (n : Node) → Node.hasTag new n = false →
      Node.hit (Node.recase old new n) new
        = Option.map (Node.recase old new) (Node.hit n old)
  | .text _, _ => rfl
  | .elem nm cs, h => by
    simp only [Node.hasTag, Bool.or_eq_false_iff, beq_eq_false_iff_ne] at h
    obtain ⟨hnm, hcs⟩ := h
    simp only [Node.recase, Node.hit]
    by_cases ho : nm = old
    · rw [if_pos ho, if_pos rfl, if_pos ho]
      simp [Node.recase, if_pos ho]
    · rw [if_neg ho, if_neg hnm, if_neg ho]
      exact NodeList.findTag_recase_new old new cs hcs

theorem NodeList.findTag_recase_new (old new : String) :
    (l : NodeList) → NodeList.hasTag new l = false →
      NodeList.findTag (NodeList.recase old new l) new
        = Option.map (Node.recase old new) (NodeList.findTag l old)
  | .nil, _ => rfl
  | .cons n ns, h => by
    simp only [NodeList.hasTag, Bool.or_eq_false_iff] at h
    obtain ⟨hn, hns⟩ := h
    simp only [NodeList.recase, NodeList.findTag]
    rw [Node.hit_recase_new old new n hn]
    cases Node.hit n old with
    | some m => simp
    | none =>
      simp only [Option.map_none']
      exact NodeList.findTag_recase_new old new ns hns

end

mutual

/-- A node found below `n` only carries tags that `n` itself carries. -/
theorem Node.hasTag_of_hit (name p : String) :
    (n : Node) → (m : Node) → Node.hit n name = some m →
      Node.hasTag p m = true → Node.hasTag p n = true
  | .text _, _, h, _ => by cases h
  | .elem nm cs, m, h, hm => by
    simp only [Node.hit] at h
    by_cases hn : nm = name
    · rw [if_pos hn] at h
      injection h with h
      rw [← h] at hm
      exact hm
    · rw [if_neg hn] at h
      have := NodeList.hasTag_of_findTag name p cs m h hm
      simp [Node.hasTag, this]

theorem NodeList.hasTag_of_findTag (name p : String) :
    (l : NodeList) → (m : Node) → NodeList.findTag l name = some m →
      Node.hasTag p m = true → NodeList.hasTag p l = true
  | .nil, _, h, _ => by cases h
  | .cons n ns, m, h, hm => by
    simp only [NodeList.findTag] at h
    cases hh : Node.hit n name with
    | some m2 =>
      rw [hh] at h
      injection h with h
      subst h
      simp [NodeList.hasTag, Node.hasTag_of_hit name p n _ hh hm]
    | none =>
      rw [hh] at h
      simp [NodeList.hasTag, NodeList.hasTag_of_findTag name p ns m h hm]

end

mutual

/-- A search for a name the tree does not contain fails. -/
theorem Node.hit_eq_none_of_not_hasTag (p : String) :
    (n : Node) → Node.hasTag p n = false → Node.hit n p = none
  | .text _, _ => rfl
  | .elem nm cs, h => by
    simp only [Node.hasTag, Bool.or_eq_false_iff, beq_eq_false_iff_ne] at h
    obtain ⟨h1, h2⟩ := h
    simp only [Node.hit]
    rw [if_neg h1]
    exact NodeList.findTag_eq_none_of_not_hasTag p cs h2

theorem NodeList.findTag_eq_none_of_not_hasTag (p : String) :
    (l : NodeList) → NodeList.hasTag p l = false → NodeList.findTag l p = none
  | .nil, _ => rfl
  | .cons n ns, h => by
    simp only [NodeList.hasTag, Bool.or_eq_false_iff] at h
    obtain ⟨h1, h2⟩ := h
    simp only [NodeList.findTag]
    rw [Node.hit_eq_none_of_not_hasTag p n h1]
    exact NodeList.findTag_eq_none_of_not_hasTag p ns h2

end

/-- `Node.find` commutes with an unrelated renaming. -/
theorem Node.find_recase (old new name : String) (h1 : name ≠ old) (h2 : name ≠ new)
    (n : Node) :
    Node.find (Node.recase old new n) name
      = Option.map (Node.recase old new) (Node.find n name) := by
  cases n with
  | text s => rfl
  | elem nm cs =>
    simp only [Node.recase, Node.find]
    exact NodeList.findTag_recase old new name h1 h2 cs

/-- A node found by `Node.find` only carries tags that the whole tree
carries. -/
theorem Node.hasTag_of_find (name p : String) (n m : Node)
    (h : Node.find n name = some m) (hm : Node.hasTag p m = true) :
    Node.hasTag p n = true := by
  cases n with
  | text s => cases h
  | elem nm cs =>
    simp only [Node.find] at h
    have := NodeList.hasTag_of_findTag name p cs m h hm
    simp [Node.hasTag, this]

/-! ### src/scraper.py — ticker→CIK map with 24h cache (lines 26-59)

The filesystem and clock are modelled by a `CacheWorld`: whether the cache
file exists, its modification age `time.time() - getmtime` in seconds, its
parsed JSON content (`none` when the file is not well-formed JSON), and the
outcome of the upstream HTTP request (status code and decoded
`company_tickers.json` entries; `.error` is a network-layer failure).  The
effects of a run are returned explicitly: the mapping produced, whether the
network was used, and what (if anything) was written over the cache file. -/

/-- One entry of `company_tickers.json` (`entry["ticker"]`,
`entry["cik_str"]`). -/
structure TickerEntry where
  ticker : String
  cik_str : ℕ
deriving DecidableEq, Repr

structure CacheWorld where
  cacheExists : Bool
  cacheAge : ℚ
  cacheJson : Option (List (String × String))
  netResponse : Except Unit (ℕ × List TickerEntry)

/-- Python `str(n).zfill(10)`. -/
def zfill10 (n : ℕ) : String :=
  let s := toString n
  ⟨List.replicate (10 - s.length) '0'⟩ ++ s

/-- Python dict insertion on an association list: overwrite in place, or
append a fresh key. -/
def assocInsert (m : List (String × String)) (k v : String) : List (String × String) :=
  if m.any (fun p => p.1 = k) then
    m.map (fun p => if p.1 = k then (k, v) else p)
  else m ++ [(k, v)]

/-- Lines 49-53: `mapping[entry["ticker"].upper()] = str(entry["cik_str"]).zfill(10)`. -/
def buildTickerMap (raw : List TickerEntry) : List (String × String) :=
  raw.foldl (fun m e => assocInsert m (pyUpper e.ticker) (zfill10 e.cik_str)) []

/-- Uncaught exceptions of `fetch_ticker_to_cik_map`: a malformed cache file
(`json.load` raises) or a failed download (`session.get` /
`raise_for_status` raise, nothing catches them in this function). -/
inductive FetchErr where
  | jsonError
  | netError
deriving DecidableEq, Repr

structure FetchOutcome where
  result : List (String × String)
  networkCalled : Bool
  cacheWritten : Option (List (String × String))
deriving DecidableEq, Repr

/-- src/scraper.py lines 26-59: `fetch_ticker_to_cik_map`.  A cache file
younger than 86400 seconds is deserialized and returned as-is; otherwise the
map is downloaded (a 4xx/5xx status makes `raise_for_status` raise), rebuilt
and written wholesale over the cache file.  (A well-formed but malformed-JSON
body of the download is outside the model; no claim concerns it.) -/
def fetch_ticker_to_cik_map (w : CacheWorld) : Except FetchErr FetchOutcome :=
  if w.cacheExists ∧ w.cacheAge < 86400 then
    match w.cacheJson with
    | some m => .ok ⟨m, false, none⟩
    | none => .error .jsonError
  else
    match w.netResponse with
    | .error _ => .error .netError
    | .ok (st, raw) =>
      if 400 ≤ st ∧ st < 600 then .error .netError
      else
        let mapping := buildTickerMap raw
        .ok ⟨mapping, true, some mapping⟩

/-! ### src/scraper.py — EFTS date-range search pagination (lines 236-273)

The upstream is a function from `(offset, size)` request parameters to either
a network failure or a page (`hits` list and reported `total`).  The loop is
embedded with a fuel parameter for structural recursion; since every
continuing iteration strictly increases `offset` (hits are non-empty) and the
loop runs only while `offset < max_filings`, fuel `max_filings` is enough for
the wrapper to be exactly the Python `while` loop.  Alongside the accumulated
hits it returns the list of `(offset, size)` pairs of the requests issued. -/

def eftsLoopF {α : Type} (server : ℕ → ℕ → Except Unit (List α × ℕ)) (maxf : ℕ) :
    ℕ → ℕ → List α → List (ℕ × ℕ) → List α × List (ℕ × ℕ)
  | 0, _, acc, reqs => (acc, reqs)
  | fuel + 1, offset, acc, reqs =>
    if offset < maxf then
      let size := min 100 (maxf - offset)
      match server offset size with
      | .error _ => (acc, reqs ++ [(offset, size)])
      | .ok (hits, total) =>
        if hits.isEmpty then (acc, reqs ++ [(offset, size)])
        else if offset + hits.length ≥ total then (acc ++ hits, reqs ++ [(offset, size)])
        else eftsLoopF server maxf fuel (offset + hits.length)
          (acc ++ hits) (reqs ++ [(offset, size)])
    else (acc, reqs)

/-- The hit-accumulation stage of `search_form4_filings_by_date`
(lines 236-273): all hits fetched plus the requests issued. -/
def searchHitsLoop {α : Type} (server : ℕ → ℕ → Except Unit (List α × ℕ))
    (maxf : ℕ) : List α × List (ℕ × ℕ) :=
  eftsLoopF server maxf maxf 0 [] []

/-- A test upstream reporting `total = 130`: at offset `o` it returns
`min size (130 - o)` hits. -/
def server130 : ℕ → ℕ → Except Unit (List Unit × ℕ) :=
  fun offset size => .ok (List.replicate (min size (130 - offset)) (), 130)

/-! ### src/scraper.py — document download and the two collection strategies

Network, markup parsing and configuration are an explicit environment.
`http url` is the outcome of `session.get(url)`; `soup s` is the element tree
BeautifulSoup produces from the text `s`; `filingsFor cik ticker` is the
outcome of `fetch_form4_filings_for_cik`; `cikMap` is the ticker→CIK map;
`latestResp` is the outcome of the EFTS full-text search request of the
"latest" mode (status code and hits); `searchFilings` is the filing
metadata returned by `search_form4_filings_by_date` (whose request loop is
verified separately as `eftsLoopF`). -/

/-- An HTTP response: status code and body text. -/
structure HRes where
  status : ℕ
  text : String
deriving DecidableEq, Repr

/-- A filing reference from `fetch_form4_filings_for_cik` (lines 85-91). -/
structure Filing where
  accessionNumber : String
  filingDate : String
  primaryDocument : String
  url : String
  ticker : String
deriving DecidableEq, Repr

/-- A filing reference from `search_form4_filings_by_date` (lines 306-312). -/
structure DFiling where
  url : String
  ticker : String
  company : String
  filing_date : String
  accession : String
deriving DecidableEq, Repr

/-- The EFTS page of the "latest" mode: HTTP status and hits (the
per-hit loop body of lines 196-199 binds locals and drops them). -/
structure LatestPage where
  status : ℕ
  hits : List Unit
deriving DecidableEq, Repr

structure ScrEnv where
  http : String → Except Unit HRes
  soup : String → Node
  filingsFor : String → String → Except Unit (List Filing)
  cikMap : List (String × String)
  configMode : String
  configWatchlist : List String
  latestResp : Except Unit LatestPage
  searchFilings : List DFiling

/-- src/scraper.py lines 96-108: `fetch_form4_xml`.  `raise_for_status`
raises exactly for statuses 400-599; `requests.RequestException` (network
failures and those raises) becomes `None`. -/
def fetch_form4_xml (http : String → Except Unit HRes) (url : String) : Option String :=
  match http url with
  | .error _ => none
  | .ok r => if 400 ≤ r.status ∧ r.status < 600 then none else some r.text

/-- Lines 170-172 (watchlist strategy): overwrite ticker and filing date from
the filing reference. -/
def watchUpdate (ticker : String) (filing : Filing) (t : Trade) : Trade :=
  { t with ticker := ticker, filing_date := filing.filingDate }

/-- Lines 163-173: the inner per-filing loop of the watchlist strategy: skip
filings whose download failed, parse the rest, stamp ticker/filing date. -/
def watchFilingLoop (env : ScrEnv) (ticker : String) : List Filing → List Trade
  | [] => []
  | f :: rest =>
    match fetch_form4_xml env.http f.url with
    | none => watchFilingLoop env ticker rest
    | some xml =>
      ((parse_form4_xml (env.soup xml) f.url).map (watchUpdate ticker f))
        ++ watchFilingLoop env ticker rest

/-- Lines 144-173: the per-ticker loop of the watchlist strategy.  A ticker
with no CIK (`if not cik`, which also skips an empty string) or a failed
filing-list request contributes nothing. -/
def watchTickerLoop (env : ScrEnv) (maxf : ℕ) : List String → List Trade
  | [] => []
  | t :: rest =>
    (match (env.cikMap.lookup (pyUpper t)) with
      | none => []
      | some cik =>
        if cik = "" then []
        else
          match env.filingsFor cik (pyUpper t) with
          | .error _ => []
          | .ok filings => watchFilingLoop env (pyUpper t) (filings.take maxf))
      ++ watchTickerLoop env maxf rest

/-- src/scraper.py lines 111-206: `collect_insider_trades`.  `none` arguments
take the config defaults (lines 128-132).  In "latest" mode a network
failure or an HTTP-error status (both `requests.RequestException`, lines
200-203) re-runs the collection in watchlist mode — with
`max_filings_per_ticker` back at its default 10, as in the source call; a
successful search leaves `all_trades` empty because the per-hit loop body
(lines 196-199) produces nothing. -/
def collect_insider_trades (env : ScrEnv) (tickers? : Option (List String))
    (mode? : Option String) (maxf : ℕ) : List Trade :=
  if h1 : mode?.getD env.configMode = "watchlist" then
    watchTickerLoop env maxf (tickers?.getD env.configWatchlist)
  else if h2 : mode?.getD env.configMode = "latest" then
    match env.latestResp with
    | .error _ =>
      collect_insider_trades env (some (tickers?.getD env.configWatchlist)) (some "watchlist") 10
    | .ok page =>
      if 400 ≤ page.status ∧ page.status < 600 then
        collect_insider_trades env (some (tickers?.getD env.configWatchlist)) (some "watchlist") 10
      else []
  else []
termination_by (if mode?.getD env.configMode = "watchlist" then 0 else 1 : ℕ)
decreasing_by
  all_goals simp_all

/-- The progress-callback invocations `collect_insider_trades` performs:
none — the function has no callback parameter and never reports progress
(src/scraper.py lines 111-115). -/
def collect_insider_trades_progress (_env : ScrEnv) (_tickers? : Option (List String))
    (_mode? : Option String) (_maxf : ℕ) : List (ℕ × ℕ) := []

/-- Lines 359-364 (date-range strategy): fill ticker/company from the filing
reference only when the parsed value is empty and the reference's is not;
always overwrite the filing date. -/
def dateUpdate (filing : DFiling) (t : Trade) : Trade :=
  let t1 := if t.ticker = "" ∧ filing.ticker ≠ "" then { t with ticker := filing.ticker } else t
  let t2 := if t1.company = "" ∧ filing.company ≠ "" then { t1 with company := filing.company } else t1
  { t2 with filing_date := filing.filing_date }

/-- Lines 349-365: the per-filing loop of the date-range strategy, enumerated
with index `i` out of `total`; returns the trades and, when a callback was
supplied (`hcb`), the `(completed, total)` progress invocations. -/
def dateLoop (env : ScrEnv) (hcb : Bool) (total : ℕ) :
    ℕ → List DFiling → List Trade × List (ℕ × ℕ)
  | _, [] => ([], [])
  | i, f :: rest =>
    let evs := if hcb then [(i, total)] else []
    let tr :=
      match fetch_form4_xml env.http f.url with
      | none => []
      | some xml => (parse_form4_xml (env.soup xml) f.url).map (dateUpdate f)
    let r := dateLoop env hcb total (i + 1) rest
    (tr ++ r.1, evs ++ r.2)

/-- src/scraper.py lines 317-371: `collect_all_form4_by_date`.  An empty
search result returns early (no progress call at all); otherwise each filing
is processed with a progress call before it and one final `(total, total)`
call after the loop. -/
def collect_all_form4_by_date (env : ScrEnv) (hcb : Bool) : List Trade × List (ℕ × ℕ) :=
  let filings := env.searchFilings
  if filings.isEmpty then ([], [])
  else
    let total := filings.length
    let r := dateLoop env hcb total 0 filings
    (r.1, r.2 ++ (if hcb then [(total, total)] else []))

/-! ### Concrete fixtures used by the witnesses and counterexamples -/

/-- A non-derivative transaction acquiring/disposed-flag `"D"`, 5 shares at
10.5. -/
def exTxnD : Node :=
  nEl "nonDerivativeTransaction"
    [nEl "transactionAmounts"
      [nEl "transactionShares" [nEl "value" [.text " 5 "]],
       nEl "transactionPricePerShare" [nEl "value" [.text "10.5"]],
       nEl "transactionAcquiredDisposedCode" [nEl "value" [.text "D"]]]]

/-- A transaction with flag `"A"` whose share count is already negative in the
document. -/
def exTxnA : Node :=
  nEl "nonDerivativeTransaction"
    [nEl "transactionAmounts"
      [nEl "transactionShares" [nEl "value" [.text "-7"]],
       nEl "transactionAcquiredDisposedCode" [nEl "value" [.text "A"]]]]

/-- A document whose only transaction element has no children at all: every
field of the emitted record must take its default. -/
def defaultTxnDoc : Node :=
  nEl "form4" [nEl "nonDerivativeTable" [nEl "nonDerivativeTransaction" []]]

/-- A document using the lowerCamelCase `issuerName` spelling. -/
def exDoc1 : Node :=
  nEl "[document]" [nEl "issuer" [nEl "issuerName" [.text " Apple Inc. "]]]

/-! ### C1 -/

/-- C1: every record emitted by `_parse_transaction` satisfies
`total_value = |shares| * price_per_share` for its own (already
sign-normalized) shares and price fields, and recomputing the total from the
record is the identity (idempotence).  The total is built from the record's
own fields — `_parse_transaction` reads no upstream total — so recomputing it
changes nothing. -/
theorem claim_C1 (txn : Node) (security_type : String) :
    (_parse_transaction txn security_type).total_value
      = |(_parse_transaction txn security_type).shares|
          * (_parse_transaction txn security_type).price_per_share
    ∧ recomputeTotal (_parse_transaction txn security_type)
        = _parse_transaction txn security_type := by
  have h : qMul |(_parse_transaction txn security_type).shares|
      (_parse_transaction txn security_type).price_per_share
      = (_parse_transaction txn security_type).total_value := rfl
  constructor
  · rw [← h, qMul_eq_mul]
  · unfold recomputeTotal
    rw [← qMul_eq_mul, h]

/-! ### C2 -/

/-- C2: when the acquired/disposed flag parses to exactly `"D"`, the emitted
share count is `-|raw|` (hence non-positive) regardless of the sign in the
document; for any other flag the raw parsed share count is passed through
unchanged. -/
theorem claim_C2 (txn : Node) (security_type : String) :
    (txnAdFlag txn = "D" →
      (_parse_transaction txn security_type).shares = -|txnRawShares txn|
        ∧ (_parse_transaction txn security_type).shares ≤ 0)
    ∧ (txnAdFlag txn ≠ "D" →
      (_parse_transaction txn security_type).shares = txnRawShares txn) := by
  have hs : (_parse_transaction txn security_type).shares
      = if txnAdFlag txn = "D" then -|txnRawShares txn| else txnRawShares txn := rfl
  constructor
  · intro h
    have he : (_parse_transaction txn security_type).shares = -|txnRawShares txn| := by
      rw [hs, if_pos h]
    exact ⟨he, he ▸ neg_nonpos.mpr (abs_nonneg _)⟩
  · intro h
    rw [hs, if_neg h]

theorem claim_C2_witness :
    txnAdFlag exTxnD = "D"
    ∧ (_parse_transaction exTxnD "Non-Derivative").shares = -5
    ∧ txnAdFlag exTxnA ≠ "D"
    ∧ (_parse_transaction exTxnA "Non-Derivative").shares = -7 := by
  refine ⟨by decide, ?_, by decide, ?_⟩
  · have h := ((claim_C2 exTxnD "Non-Derivative").1 (by decide)).1
    rw [h]; decide
  · have h := (claim_C2 exTxnA "Non-Derivative").2 (by decide)
    rw [h]; decide

/-! ### C3 -/

/-- C3: `parse_form4_xml` is total by construction (it is a plain function
into lists); `_to_float` returns 0 exactly when the comma-stripped and
trimmed text fails to parse as a decimal literal and otherwise returns that
literal's value (never an exception); and a transaction element with every
field absent yields the all-default record — zero shares, price, total and
post-transaction count, `"Direct"` ownership, and empty strings
everywhere else. -/
theorem claim_C3 :
    (∀ t : String, pyFloatOfString (pyStrip (stripCommas t)) = none → _to_float t = 0)
    ∧ (∀ (t : String) (q : ℚ),
        pyFloatOfString (pyStrip (stripCommas t)) = some q → _to_float t = q)
    ∧ (∀ url : String, parse_form4_xml defaultTxnDoc url =
        [{ transaction_code := "", transaction_type := "", shares := 0,
           price_per_share := 0, total_value := 0, shares_owned_after := 0,
           ownership_type := "Direct", company := "", ticker := "",
           insider_name := "", insider_title := "", filing_url := url,
           filing_date := "" }]) := by
  refine ⟨?_, ?_, fun url => rfl⟩
  · intro t h
    unfold _to_float
    rw [h]
    rfl
  · intro t q h
    unfold _to_float
    rw [h]
    rfl

theorem claim_C3_witness :
    pyFloatOfString (pyStrip (stripCommas "12abc")) = none
    ∧ _to_float "12abc" = 0
    ∧ pyFloatOfString (pyStrip (stripCommas " 1,234.5 ")) = some (mkRat 2469 2)
    ∧ _to_float " 1,234.5 " = mkRat 2469 2 :=
  ⟨by decide, claim_C3.1 "12abc" (by decide), by decide,
    claim_C3.2.1 " 1,234.5 " (mkRat 2469 2) (by decide)⟩

/-! ### C4 -/

/-- Every request the pagination loop issues carries a page size of at most
100 (helper for C4). -/
theorem eftsLoopF_sizes {α : Type} (server : ℕ → ℕ → Except Unit (List α × ℕ))
    (maxf : ℕ) :
    ∀ (fuel offset : ℕ) (acc : List α) (reqs : List (ℕ × ℕ)),
      (∀ r ∈ reqs, r.2 ≤ 100) →
      ∀ r ∈ (eftsLoopF server maxf fuel offset acc reqs).2, r.2 ≤ 100
  | 0, offset, acc, reqs, h => by
    simpa [eftsLoopF] using h
  | fuel + 1, offset, acc, reqs, h => by
    have hext : ∀ r ∈ reqs ++ [(offset, min 100 (maxf - offset))], r.2 ≤ 100 := by
      intro r hr
      rcases List.mem_append.mp hr with hr | hr
      · exact h r hr
      · rcases List.mem_singleton.mp hr with rfl
        exact Nat.min_le_left 100 _
    simp only [eftsLoopF]
    by_cases ho : offset < maxf
    · rw [if_pos ho]
      split
      · intro r hr
        exact hext r hr
      · rename_i x hits total heq
        by_cases hempty : hits.isEmpty
        · rw [if_pos hempty]
          intro r hr
          exact hext r hr
        · rw [if_neg hempty]
          by_cases hstop : offset + hits.length ≥ total
          · rw [if_pos hstop]
            intro r hr
            exact hext r hr
          · rw [if_neg hstop]
            exact eftsLoopF_sizes server maxf fuel (offset + hits.length)
              (acc ++ hits) (reqs ++ [(offset, min 100 (maxf - offset))]) hext
    · rw [if_neg ho]
      exact h

/-- C4: the date-range pagination loop requests pages of size at most 100; it
issues no request once the offset has reached `max_filings`; it stops
immediately — returning the accumulated hits plus the current page, with no
further request — as soon as `offset + hits ≥ total`; and on an upstream
reporting `total = 130` with `max_filings = 200` it makes exactly the two
requests `(offset 0, size 100)` and `(offset 100, size 100)`, obtaining
100 + 30 hits, with no third request.  Termination is by construction: each
continuing iteration adds at least one hit to the offset. -/
theorem claim_C4 :
    (∀ (α : Type) (server : ℕ → ℕ → Except Unit (List α × ℕ))
        (maxf fuel offset : ℕ) (acc : List α) (reqs : List (ℕ × ℕ)),
        (∀ r ∈ reqs, r.2 ≤ 100) →
        ∀ r ∈ (eftsLoopF server maxf fuel offset acc reqs).2, r.2 ≤ 100)
    ∧ (∀ (α : Type) (server : ℕ → ℕ → Except Unit (List α × ℕ))
        (maxf fuel offset : ℕ) (acc : List α) (reqs : List (ℕ × ℕ)),
        maxf ≤ offset →
        eftsLoopF server maxf fuel offset acc reqs = (acc, reqs))
    ∧ (∀ (α : Type) (server : ℕ → ℕ → Except Unit (List α × ℕ))
        (maxf fuel offset : ℕ) (acc : List α) (reqs : List (ℕ × ℕ))
        (hits : List α) (total : ℕ),
        offset < maxf →
        server offset (min 100 (maxf - offset)) = .ok (hits, total) →
        hits ≠ [] → total ≤ offset + hits.length →
        eftsLoopF server maxf (fuel + 1) offset acc reqs
          = (acc ++ hits, reqs ++ [(offset, min 100 (maxf - offset))]))
    ∧ searchHitsLoop server130 200 = (List.replicate 130 (), [(0, 100), (100, 100)]) := by
  refine ⟨?_, ?_, ?_, ?_⟩
  · intro α server maxf fuel offset acc reqs h
    exact eftsLoopF_sizes server maxf fuel offset acc reqs h
  · intro α server maxf fuel offset acc reqs h
    cases fuel with
    | zero => rfl
    | succ fuel =>
      simp only [eftsLoopF]
      rw [if_neg (Nat.not_lt.mpr h)]
  · intro α server maxf fuel offset acc reqs hits total ho hs hne hstop
    have hempty : hits.isEmpty = false := by
      cases hits with
      | nil => exact absurd rfl hne
      | cons a as => rfl
    simp only [eftsLoopF]
    rw [if_pos ho, hs]
    show (if hits.isEmpty = true then (acc, reqs ++ [(offset, min 100 (maxf - offset))])
        else if offset + hits.length ≥ total then
          (acc ++ hits, reqs ++ [(offset, min 100 (maxf - offset))])
        else eftsLoopF server maxf fuel (offset + hits.length) (acc ++ hits)
          (reqs ++ [(offset, min 100 (maxf - offset))]))
      = (acc ++ hits, reqs ++ [(offset, min 100 (maxf - offset))])
    rw [hempty]
    simp only [Bool.false_eq_true, if_false]
    rw [if_pos hstop]
  · rfl

theorem claim_C4_witness :
    ((0, 100) : ℕ × ℕ).2 ≤ 100
    ∧ eftsLoopF server130 3 7 5 [] [] = ([], [])
    ∧ eftsLoopF server130 200 1 100 (List.replicate 100 ()) [(0, 100)]
        = (List.replicate 100 () ++ List.replicate 30 (),
           [(0, 100)] ++ [(100, min 100 (200 - 100))]) :=
  ⟨claim_C4.1 Unit server130 200 200 0 [] [] (by simp) (0, 100) (by decide),
   claim_C4.2.1 Unit server130 3 7 5 [] [] (by decide),
   claim_C4.2.2.1 Unit server130 200 0 100 (List.replicate 100 ()) [(0, 100)]
     (List.replicate 30 ()) 130 (by decide) rfl (by decide) (by decide)⟩

/-! ### C5 -/

/-- Renaming `issuerName → IssuerName` inside the issuer element does not
change the company-name lookup (helper for C5). -/
theorem issuerNameLookup_recase (i : Node)
    (hi : Node.hasTag "IssuerName" i = false) :
    (match Node.find (Node.recase "issuerName" "IssuerName" i) "issuerName" with
     | some nt => pyStrip nt.textStr
     | none =>
       match Node.find (Node.recase "issuerName" "IssuerName" i) "IssuerName" with
       | some nt => pyStrip nt.textStr
       | none => "")
    = (match Node.find i "issuerName" with
       | some nt => pyStrip nt.textStr
       | none =>
         match Node.find i "IssuerName" with
         | some nt => pyStrip nt.textStr
         | none => "") := by
  cases i with
  | text s => rfl
  | elem nm cs =>
    have hcs : NodeList.hasTag "IssuerName" cs = false := by
      simp only [Node.hasTag, Bool.or_eq_false_iff] at hi
      exact hi.2
    simp only [Node.recase, Node.find]
    rw [NodeList.findTag_recase_old "issuerName" "IssuerName" (by decide) cs,
      NodeList.findTag_recase_new "issuerName" "IssuerName" cs hcs,
      NodeList.findTag_eq_none_of_not_hasTag "IssuerName" cs hcs]
    cases hf : NodeList.findTag cs "issuerName" with
    | some nt =>
      simp only [Option.map_some']
      rw [Node.textStr_recase]
    | none =>
      simp only [Option.map_none']

/-- C5: tag lookups try the lowerCamelCase and the PascalCase spellings
before concluding absence: for a document with no `IssuerName` element,
recasing every `issuerName` element to `IssuerName` leaves the extracted
company name unchanged. -/
theorem claim_C5 (soup : Node) (h : Node.hasTag "IssuerName" soup = false) :
    issuerCompany (Node.recase "issuerName" "IssuerName" soup) = issuerCompany soup := by
  unfold issuerCompany issuerTag
  rw [Node.find_recase "issuerName" "IssuerName" "issuer" (by decide) (by decide) soup,
    Node.find_recase "issuerName" "IssuerName" "Issuer" (by decide) (by decide) soup]
  cases h1 : Node.find soup "issuer" with
  | some i =>
    simp only [Option.map_some']
    have hi : Node.hasTag "IssuerName" i = false := by
      cases hti : Node.hasTag "IssuerName" i
      · rfl
      · rw [Node.hasTag_of_find "issuer" "IssuerName" soup i h1 hti] at h
        cases h
    exact issuerNameLookup_recase i hi
  | none =>
    simp only [Option.map_none']
    cases h2 : Node.find soup "Issuer" with
    | some i =>
      simp only [Option.map_some']
      have hi : Node.hasTag "IssuerName" i = false := by
        cases hti : Node.hasTag "IssuerName" i
        · rfl
        · rw [Node.hasTag_of_find "Issuer" "IssuerName" soup i h2 hti] at h
          cases h
      exact issuerNameLookup_recase i hi
    | none => rfl

theorem claim_C5_witness :
    Node.hasTag "IssuerName" exDoc1 = false
    ∧ issuerCompany (Node.recase "issuerName" "IssuerName" exDoc1) = issuerCompany exDoc1
    ∧ issuerCompany exDoc1 = "Apple Inc." :=
  ⟨by decide, claim_C5 exDoc1 (by decide), by decide⟩

/-! ### C6 -/

/-- C6: with an existing cache file younger than 86400 seconds,
`fetch_ticker_to_cik_map` returns the deserialized cache content as-is — no
network request, no cache write, no validation beyond the file being
well-formed JSON; with a cache aged 86400 seconds or more the upstream fetch
and rebuild run even though valid JSON sits on disk, and the rebuilt mapping
is written wholesale over the cache file before being returned. -/
theorem claim_C6 (w : CacheWorld) :
    (w.cacheExists = true → w.cacheAge < 86400 →
      ∀ m, w.cacheJson = some m →
        fetch_ticker_to_cik_map w = .ok ⟨m, false, none⟩)
    ∧ ((86400 : ℚ) ≤ w.cacheAge →
      ∀ (st : ℕ) (raw : List TickerEntry),
        w.netResponse = .ok (st, raw) → st < 400 →
        fetch_ticker_to_cik_map w
          = .ok ⟨buildTickerMap raw, true, some (buildTickerMap raw)⟩) := by
  constructor
  · intro he ha m hm
    unfold fetch_ticker_to_cik_map
    rw [if_pos ⟨he, ha⟩, hm]
  · intro ha st raw hn hst
    unfold fetch_ticker_to_cik_map
    rw [if_neg (fun hc => absurd ha (not_le.mpr hc.2)), hn]
    show (if 400 ≤ st ∧ st < 600 then Except.error FetchErr.netError
        else Except.ok (FetchOutcome.mk (buildTickerMap raw) true (some (buildTickerMap raw))))
      = Except.ok (FetchOutcome.mk (buildTickerMap raw) true (some (buildTickerMap raw)))
    rw [if_neg (fun hc => absurd hc.1 (by omega))]

/-- A cache file 1 hour old, with valid JSON content. -/
def wFresh : CacheWorld :=
  { cacheExists := true, cacheAge := 3600
    cacheJson := some [("AAPL", "0000320193")]
    netResponse := .ok (200, []) }

/-- A cache file 25 hours (90000 seconds) old, with valid JSON content, and a
working upstream. -/
def wStale : CacheWorld :=
  { cacheExists := true, cacheAge := 90000
    cacheJson := some [("AAPL", "0000320193")]
    netResponse := .ok (200, [⟨"msft", 789019⟩]) }

theorem claim_C6_witness :
    fetch_ticker_to_cik_map wFresh = .ok ⟨[("AAPL", "0000320193")], false, none⟩
    ∧ fetch_ticker_to_cik_map wStale
        = .ok ⟨buildTickerMap [⟨"msft", 789019⟩], true,
            some (buildTickerMap [⟨"msft", 789019⟩])⟩ :=
  ⟨(claim_C6 wFresh).1 rfl (by decide) _ rfl,
   (claim_C6 wStale).2 (by decide) 200 [⟨"msft", 789019⟩] rfl (by decide)⟩

/-! ### Environment fixtures for the collector claims -/

/-- A working watchlist environment: one ticker with one filing whose
document parses to exactly one trade. -/
def envW1 : ScrEnv :=
  { http := fun _ => .ok ⟨200, "xml"⟩
    soup := fun _ => defaultTxnDoc
    filingsFor := fun cik t =>
      if cik = "0000320193" ∧ t = "AAPL" then
        .ok [⟨"0000320193-25-000001", "2025-01-02", "doc.xml", "u1", "AAPL"⟩]
      else .ok []
    cikMap := [("AAPL", "0000320193")]
    configMode := "watchlist"
    configWatchlist := ["AAPL"]
    latestResp := .ok ⟨200, []⟩
    searchFilings := [] }

/-- A date-range environment with two filings found by the metadata search. -/
def envD2 : ScrEnv :=
  { envW1 with
    searchFilings :=
      [⟨"u1", "AAPL", "Apple Inc.", "2025-01-02", "0000320193-25-000001"⟩,
       ⟨"u2", "", "", "2025-01-02", "0000320193-25-000002"⟩] }

/-- A latest-mode environment whose EFTS search succeeds with status 200 and
three hits. -/
def envL1 : ScrEnv :=
  { envW1 with latestResp := .ok ⟨200, [(), (), ()]⟩ }

/-- A latest-mode environment whose EFTS search fails with a network error. -/
def envL2 : ScrEnv :=
  { envW1 with latestResp := .error () }

/-- In watchlist mode `collect_insider_trades` is the per-ticker loop
(helper unfolding of the recursive definition). -/
theorem collect_watchlist_mode (env : ScrEnv) (tickers : List String) (maxf : ℕ) :
    collect_insider_trades env (some tickers) (some "watchlist") maxf
      = watchTickerLoop env maxf tickers := by
  unfold collect_insider_trades
  rw [dif_pos (by rfl)]
  rfl

/-! ### C7 — corrected

The claim is false for the watchlist strategy: `collect_insider_trades`
(src/scraper.py lines 111-115) has no progress-callback parameter and never
reports progress, even when it processes work.  The date-range strategy does
have one and behaves as claimed. -/

/-- C7 counterexample: on a watchlist run that performs one unit of work
(one filing downloaded and parsed into one trade), no progress invocation
happens at all — in particular none before the first unit of work, as the
claim requires. -/
theorem claim_C7_counterexample :
    collect_insider_trades_progress envW1 (some ["AAPL"]) (some "watchlist") 10 = []
    ∧ (collect_insider_trades envW1 (some ["AAPL"]) (some "watchlist") 10).length = 1 := by
  constructor
  · rfl
  · rw [collect_watchlist_mode]
    decide

/-- C7 as amended: only the date-range strategy accepts an optional progress
callback; when one is supplied it is invoked with `(completed, total)` before
every unit of work and once after the last (the calls carry 0 up to `total`),
and no call is made when the callback is omitted.  The watchlist strategy
`collect_insider_trades` has no callback parameter and never reports
progress. -/
theorem claim_C7_amended :
    (∀ (env : ScrEnv) (tickers? : Option (List String)) (mode? : Option String)
        (maxf : ℕ),
        collect_insider_trades_progress env tickers? mode? maxf = [])
    ∧ (∀ env : ScrEnv, env.searchFilings ≠ [] →
        (collect_all_form4_by_date env true).2
          = (List.range env.searchFilings.length).map
              (fun i => (i, env.searchFilings.length))
            ++ [(env.searchFilings.length, env.searchFilings.length)])
    ∧ (∀ env : ScrEnv, (collect_all_form4_by_date env false).2 = []) := by
  have hloop : ∀ (env : ScrEnv) (hcb : Bool) (total : ℕ) (i : ℕ) (fs : List DFiling),
      (dateLoop env hcb total i fs).2
        = if hcb then (List.range' i fs.length).map (fun j => (j, total)) else [] := by
    intro env hcb total i fs
    induction fs generalizing i with
    | nil => cases hcb <;> simp [dateLoop]
    | cons f rest ih =>
      simp only [dateLoop, ih (i + 1), List.length_cons, List.range']
      cases hcb <;> simp
  refine ⟨fun _ _ _ _ => rfl, ?_, ?_⟩
  · intro env h
    unfold collect_all_form4_by_date
    rw [if_neg (by simpa using h)]
    show (dateLoop env true env.searchFilings.length 0 env.searchFilings).2
        ++ (if true = true then
              [(env.searchFilings.length, env.searchFilings.length)] else [])
      = _
    rw [hloop env true env.searchFilings.length 0 env.searchFilings]
    simp [List.range_eq_range']
  · intro env
    unfold collect_all_form4_by_date
    by_cases h : env.searchFilings.isEmpty
    · rw [if_pos h]
    · rw [if_neg h]
      show (dateLoop env false env.searchFilings.length 0 env.searchFilings).2
          ++ (if false = true then
                [(env.searchFilings.length, env.searchFilings.length)] else [])
        = []
      rw [hloop env false env.searchFilings.length 0 env.searchFilings]
      simp

theorem claim_C7_amended_witness :
    envD2.searchFilings ≠ []
    ∧ (collect_all_form4_by_date envD2 true).2 = [(0, 2), (1, 2), (2, 2)] := by
  refine ⟨by decide, ?_⟩
  have h := claim_C7_amended.2.1 envD2 (by decide)
  rw [h]
  decide

/-! ### C8 -/

/-- C8: in the date-range strategy the filing date is overwritten
unconditionally, ticker and company only when the parsed value is empty and
the filing reference's is non-empty, and no other field changes; in the
watchlist strategy ticker and filing date are overwritten unconditionally and
no other field changes. -/
theorem claim_C8 (filing : DFiling) (g : Filing) (ticker : String) (t : Trade) :
    ((dateUpdate filing t).filing_date = filing.filing_date
      ∧ (dateUpdate filing t).ticker
          = (if t.ticker = "" ∧ filing.ticker ≠ "" then filing.ticker else t.ticker)
      ∧ (dateUpdate filing t).company
          = (if t.company = "" ∧ filing.company ≠ "" then filing.company else t.company)
      ∧ (dateUpdate filing t).transaction_code = t.transaction_code
      ∧ (dateUpdate filing t).transaction_type = t.transaction_type
      ∧ (dateUpdate filing t).shares = t.shares
      ∧ (dateUpdate filing t).price_per_share = t.price_per_share
      ∧ (dateUpdate filing t).total_value = t.total_value
      ∧ (dateUpdate filing t).shares_owned_after = t.shares_owned_after
      ∧ (dateUpdate filing t).ownership_type = t.ownership_type
      ∧ (dateUpdate filing t).insider_name = t.insider_name
      ∧ (dateUpdate filing t).insider_title = t.insider_title
      ∧ (dateUpdate filing t).filing_url = t.filing_url)
    ∧ ((watchUpdate ticker g t).ticker = ticker
      ∧ (watchUpdate ticker g t).filing_date = g.filingDate
      ∧ (watchUpdate ticker g t).transaction_code = t.transaction_code
      ∧ (watchUpdate ticker g t).transaction_type = t.transaction_type
      ∧ (watchUpdate ticker g t).shares = t.shares
      ∧ (watchUpdate ticker g t).price_per_share = t.price_per_share
      ∧ (watchUpdate ticker g t).total_value = t.total_value
      ∧ (watchUpdate ticker g t).shares_owned_after = t.shares_owned_after
      ∧ (watchUpdate ticker g t).ownership_type = t.ownership_type
      ∧ (watchUpdate ticker g t).company = t.company
      ∧ (watchUpdate ticker g t).insider_name = t.insider_name
      ∧ (watchUpdate ticker g t).insider_title = t.insider_title
      ∧ (watchUpdate ticker g t).filing_url = t.filing_url) := by
  by_cases h1 : t.ticker = "" ∧ filing.ticker ≠ "" <;>
    by_cases h2 : t.company = "" ∧ filing.company ≠ "" <;>
      simp [dateUpdate, watchUpdate, h1, h2, if_neg, if_pos]

/-! ### C9 — corrected

`raise_for_status` raises only for statuses 400-599, so a non-2xx response
below 400 (e.g. a 304) is returned as text, not as the `None` marker: the
claim's "on any non-2xx HTTP status it returns None" fails.  The skip
behaviour of the callers is as claimed. -/

/-- An upstream answering every URL with `304 Not Modified` and a body. -/
def http304 : String → Except Unit HRes := fun _ => .ok ⟨304, "cached-xml"⟩

/-- An upstream answering every URL with `404`. -/
def http404 : String → Except Unit HRes := fun _ => .ok ⟨404, "not found"⟩

/-- An upstream failing at the network layer. -/
def httpDown : String → Except Unit HRes := fun _ => .error ()

/-- An environment whose downloads always fail (for the skip conjuncts). -/
def envDown : ScrEnv := { envW1 with http := httpDown }

/-- C9 counterexample: a 304 response is not a 2xx success, yet
`fetch_form4_xml` returns its body text rather than the `None` failure
marker. -/
theorem claim_C9_counterexample :
    ¬ (200 ≤ 304 ∧ 304 < 300)
    ∧ fetch_form4_xml http304 "u" = some "cached-xml" :=
  ⟨by decide, rfl⟩

/-- C9 as amended: `fetch_form4_xml` returns the document text on every
response `raise_for_status` accepts — all 2xx, and any other status outside
400-599 (e.g. 304); it returns `None` on a network-layer error or a 4xx/5xx
status, without raising; and both collection strategies treat `None` as
"skip this document", continuing the batch with the remaining filings. -/
theorem claim_C9_amended :
    (∀ (http : String → Except Unit HRes) (url : String) (r : HRes),
        http url = .ok r → ¬(400 ≤ r.status ∧ r.status < 600) →
        fetch_form4_xml http url = some r.text)
    ∧ (∀ (http : String → Except Unit HRes) (url : String) (r : HRes),
        http url = .ok r → 400 ≤ r.status → r.status < 600 →
        fetch_form4_xml http url = none)
    ∧ (∀ (http : String → Except Unit HRes) (url : String),
        http url = .error () → fetch_form4_xml http url = none)
    ∧ (∀ (env : ScrEnv) (ticker : String) (f : Filing) (rest : List Filing),
        fetch_form4_xml env.http f.url = none →
        watchFilingLoop env ticker (f :: rest) = watchFilingLoop env ticker rest)
    ∧ (∀ (env : ScrEnv) (hcb : Bool) (total i : ℕ) (f : DFiling) (rest : List DFiling),
        fetch_form4_xml env.http f.url = none →
        (dateLoop env hcb total i (f :: rest)).1 = (dateLoop env hcb total (i + 1) rest).1) := by
  refine ⟨?_, ?_, ?_, ?_, ?_⟩
  · intro http url r h hs
    unfold fetch_form4_xml
    rw [h]
    show (if 400 ≤ r.status ∧ r.status < 600 then none else some r.text) = some r.text
    rw [if_neg hs]
  · intro http url r h h4 h6
    unfold fetch_form4_xml
    rw [h]
    show (if 400 ≤ r.status ∧ r.status < 600 then none else some r.text) = none
    rw [if_pos ⟨h4, h6⟩]
  · intro http url h
    unfold fetch_form4_xml
    rw [h]
  · intro env ticker f rest h
    simp only [watchFilingLoop]
    rw [h]
  · intro env hcb total i f rest h
    simp only [dateLoop]
    rw [h]
    simp

theorem claim_C9_amended_witness :
    fetch_form4_xml http304 "u2" = some "cached-xml"
    ∧ fetch_form4_xml http404 "u2" = none
    ∧ fetch_form4_xml httpDown "u2" = none
    ∧ watchFilingLoop envDown "AAPL" [⟨"a", "2025-01-02", "d.xml", "u1", "AAPL"⟩]
        = watchFilingLoop envDown "AAPL" []
    ∧ (dateLoop envDown true 1 0 [⟨"u1", "AAPL", "Apple Inc.", "2025-01-02", "a"⟩]).1
        = (dateLoop envDown true 1 1 []).1 :=
  ⟨claim_C9_amended.1 http304 "u2" ⟨304, "cached-xml"⟩ rfl (by decide),
   claim_C9_amended.2.1 http404 "u2" ⟨404, "not found"⟩ rfl (by decide) (by decide),
   claim_C9_amended.2.2.1 httpDown "u2" rfl,
   claim_C9_amended.2.2.2.1 envDown "AAPL" ⟨"a", "2025-01-02", "d.xml", "u1", "AAPL"⟩ [] rfl,
   claim_C9_amended.2.2.2.2 envDown true 1 0 ⟨"u1", "AAPL", "Apple Inc.", "2025-01-02", "a"⟩ [] rfl⟩

/-! ### C10 -/

/-- C10: in "latest" mode, a search request that succeeds (no network
failure, status accepted by `raise_for_status`) yields an empty trade list no
matter how many hits came back — the per-hit loop produces nothing; a search
request failing at the network layer makes the function re-run itself in
watchlist mode (with `max_filings_per_ticker` back at its default 10) and
return that result. -/
theorem claim_C10 (env : ScrEnv) (tickers? : Option (List String)) (maxf : ℕ) :
    (∀ page : LatestPage, env.latestResp = .ok page →
        ¬(400 ≤ page.status ∧ page.status < 600) →
        collect_insider_trades env tickers? (some "latest") maxf = [])
    ∧ (env.latestResp = .error () →
        collect_insider_trades env tickers? (some "latest") maxf
          = collect_insider_trades env (some (tickers?.getD env.configWatchlist))
              (some "watchlist") 10) := by
  constructor
  · intro page h hs
    unfold collect_insider_trades
    rw [dif_neg (by simp), dif_pos (by rfl), h]
    show (if 400 ≤ page.status ∧ page.status < 600 then
        collect_insider_trades env (some (tickers?.getD env.configWatchlist))
          (some "watchlist") 10
      else []) = []
    rw [if_neg hs]
  · intro h
    rw [collect_watchlist_mode env (tickers?.getD env.configWatchlist) 10]
    unfold collect_insider_trades
    rw [dif_neg (by simp), dif_pos (by rfl), h]
    show collect_insider_trades env (some (tickers?.getD env.configWatchlist))
        (some "watchlist") 10
      = watchTickerLoop env 10 (tickers?.getD env.configWatchlist)
    exact collect_watchlist_mode env (tickers?.getD env.configWatchlist) 10

theorem claim_C10_witness :
    collect_insider_trades envL1 (some []) (some "latest") 5 = []
    ∧ collect_insider_trades envL2 (some ["AAPL"]) (some "latest") 5
        = collect_insider_trades envL2 (some ["AAPL"]) (some "watchlist") 10 :=
  ⟨(claim_C10 envL1 (some []) 5).1 ⟨200, [(), (), ()]⟩ rfl (by decide),
   (claim_C10 envL2 (some ["AAPL"]) 5).2 rfl⟩

end InsiderTracker
